import Mathlib

/-!
Shallow embedding of `src/face_detection.py` (repository pidoko/ObjectDetection).

The program is a face-detection pipeline over video frames:
  * `detect_faces` (lines 18-46): converts a BGR frame to grayscale, runs the
    external cascade detector `detectMultiScale(scaleFactor=1.1, minNeighbors=5,
    minSize=(40,40))`, draws a green rectangle for each detection onto the input
    buffer in place (`cv2.rectangle(frame, (x,y), (x+w,y+h), (0,255,0), 4)`),
    and returns the same buffer.
  * `process_video` (lines 48-83): the Gradio streaming callback. Returns a
    None/zero-size frame unchanged after one warning; converts RGB to BGR
    (cv2.error caught: log, return the original frame); calls `detect_faces`
    on the fresh converted buffer (not wrapped in try/except); converts back
    BGR to RGB (cv2.error caught: log, return the annotated BGR frame).
  * `main` (lines 107-146): the interactive loop. Reads frames from a capture
    device; an unsuccessful/None/zero-size read logs a warning and `continue`s;
    a valid frame is annotated by `detect_faces` and shown; the loop breaks
    only when the key 's' is pressed; after the loop the device is released and
    the windows destroyed.

Python ndarrays are mutable buffers passed by reference, so the stateful parts
(`detect_faces` mutating its argument, `process_video` allocating fresh buffers)
are embedded as explicit state passing over a heap of buffers; `cv2.cvtColor`
raising `cv2.error` is embedded with `Except`.  The cascade detector is an
opaque external capability and is a parameter of every embedded function.
-/

namespace FaceDetection

/-- A numpy image buffer: shape `(height, width, channels)`, 8-bit samples
stored row-major as a flat list (one `Nat` per sample). A malformed frame is
representable (wrong channel count, empty dims, wrong data length). -/
structure Frame where
  height : Nat
  width : Nat
  channels : Nat
  data : List Nat
deriving DecidableEq, Repr

/-- `ndarray.size`: the number of samples, the product of the shape dims. -/
def Frame.size (f : Frame) : Nat :=
  f.height * f.width * f.channels

/-- A well-formed video frame: 3 channels, nonempty, consistent flat data of
8-bit samples.  This is the spec's Frame data model. -/
def Frame.WellFormed (f : Frame) : Prop :=
  f.channels = 3 ∧ 0 < f.height ∧ 0 < f.width ∧
    f.data.length = f.height * f.width * 3 ∧ ∀ v ∈ f.data, v < 256

instance (f : Frame) : Decidable f.WellFormed := by
  unfold Frame.WellFormed; infer_instance

/-- Grayscale 2-D buffer produced by `cv2.cvtColor(_, COLOR_BGR2GRAY)`. -/
structure GrayFrame where
  height : Nat
  width : Nat
  data : List Nat
deriving DecidableEq, Repr

/-- One face rectangle `(x, y, w, h)` as returned by `detectMultiScale`. -/
structure Detection where
  x : Nat
  y : Nat
  w : Nat
  h : Nat
deriving DecidableEq, Repr

/-- The type of the opaque external detector
`detectMultiScale(gray, scaleFactor, minNeighbors, minSize)`. -/
def DetectorT : Type :=
  GrayFrame → Rat → Nat → Nat × Nat → List Detection

/-- The external detector's parameter contract for `minSize` (spec 4.2):
candidates smaller than `minSize` are discarded. -/
def DetectorContract (det : DetectorT) : Prop :=
  ∀ (g : GrayFrame) (sf : Rat) (mn : Nat) (ms : Nat × Nat) (d : Detection),
    d ∈ det g sf mn ms → ms.1 ≤ d.w ∧ ms.2 ≤ d.h

/-- Reverse each pixel's channel triple: the pixel-level effect of
`cv2.cvtColor` with `COLOR_RGB2BGR` / `COLOR_BGR2RGB` on a 3-channel buffer. -/
def swapTriples : List Nat → List Nat
  | b :: g :: r :: rest => r :: g :: b :: swapTriples rest
  | l => l

/-- The pure buffer produced by a successful RGB↔BGR conversion. -/
def rgbSwap (f : Frame) : Frame :=
  { f with data := swapTriples f.data }

/-- OpenCV's fixed-point grayscale of a flat BGR sample list:
`gray = (R*4899 + G*9617 + B*1868 + 8192) >> 14` per pixel. -/
def grayOfBGR : List Nat → List Nat
  | b :: g :: r :: rest =>
      ((r * 4899 + g * 9617 + b * 1868 + 8192) / 16384) :: grayOfBGR rest
  | _ => []

/-- `cv2.cvtColor(f, COLOR_RGB2BGR)`: succeeds on a nonempty 3-channel buffer,
raises `cv2.error` (embedded as `Except.error`) otherwise. -/
def cvtColorRGB2BGR (f : Frame) : Except Unit Frame :=
  if f.channels = 3 ∧ 0 < f.height * f.width then .ok (rgbSwap f) else .error ()

/-- `cv2.cvtColor(f, COLOR_BGR2RGB)`: same applicability condition, and the
same channel reversal, as `COLOR_RGB2BGR`. -/
def cvtColorBGR2RGB (f : Frame) : Except Unit Frame :=
  if f.channels = 3 ∧ 0 < f.height * f.width then .ok (rgbSwap f) else .error ()

/-- `cv2.cvtColor(f, COLOR_BGR2GRAY)` (line 32 of the source). -/
def cvtColorBGR2GRAY (f : Frame) : Except Unit GrayFrame :=
  if f.channels = 3 ∧ 0 < f.height * f.width then
    .ok ⟨f.height, f.width, grayOfBGR f.data⟩
  else .error ()

/-- Whether pixel (row `i`, col `j`) lies on the rasterized outline of the
rectangle `(x,y)-(x+w,y+h)` drawn with stroke width 4: within 2 samples of one
of the four edges, between the extended ends of that edge. -/
def onBorder (d : Detection) (i j : Nat) : Bool :=
  let x2 := d.x + d.w
  let y2 := d.y + d.h
  (((d.x - 2 ≤ j ∧ j ≤ d.x + 2) ∨ (x2 - 2 ≤ j ∧ j ≤ x2 + 2)) ∧
      (d.y - 2 ≤ i ∧ i ≤ y2 + 2)) ∨
  (((d.y - 2 ≤ i ∧ i ≤ d.y + 2) ∨ (y2 - 2 ≤ i ∧ i ≤ y2 + 2)) ∧
      (d.x - 2 ≤ j ∧ j ≤ x2 + 2))

/-- `cv2.rectangle(frame, (x,y), (x+w,y+h), (0,255,0), 4)` (line 44 of the
source): paint every border pixel green — in BGR samples `(0, 255, 0)` —
clipping to the image extent, leaving all other samples untouched. -/
def drawRect (f : Frame) (d : Detection) : Frame :=
  { f with
    data := (List.range f.data.length).map fun idx =>
      let c := idx % 3
      let pix := idx / 3
      let j := pix % f.width
      let i := pix / f.width
      if onBorder d i j then (if c = 1 then 255 else 0)
      else f.data.getD idx 0 }

/-- The annotation loop of `detect_faces` (lines 43-44): draw each detected
rectangle in turn onto the frame buffer. -/
def annotate (f : Frame) (ds : List Detection) : Frame :=
  ds.foldl drawRect f

/-- The detector invocation of `detect_faces` (lines 35-40):
`scaleFactor=1.1, minNeighbors=5, minSize=(40,40)`. -/
def runDetector (det : DetectorT) (g : GrayFrame) : List Detection :=
  det g (11 / 10 : Rat) 5 (40, 40)

/-- The grayscale frame built by a successful `COLOR_BGR2GRAY` conversion. -/
def grayFrameOf (f : Frame) : GrayFrame :=
  ⟨f.height, f.width, grayOfBGR f.data⟩

/-- The sample at (row `i`, col `j`, channel `c`) of a frame. -/
def Frame.pixel (f : Frame) (i j c : Nat) : Nat :=
  f.data.getD ((i * f.width + j) * 3 + c) 0

/-! ### Heap of buffers

Python ndarrays are mutable objects handled by reference; `cv2.rectangle`
mutates the referenced buffer in place while `cv2.cvtColor` allocates a fresh
one.  A heap is a list of buffers, a reference is an index into it. -/

/-- A reference to an ndarray buffer. -/
abbrev Ref : Type := Nat

/-- The store of live ndarray buffers. -/
abbrev Heap : Type := List Frame

/-- Dereference a buffer. -/
def heapGet (h : Heap) (r : Ref) : Option Frame :=
  h.get? r

/-- Overwrite the buffer a reference points to (in-place mutation). -/
def heapSet (h : Heap) (r : Ref) (f : Frame) : Heap :=
  h.set r f

/-- Allocate a fresh buffer, returning the new heap and the fresh reference. -/
def heapAlloc (h : Heap) (f : Frame) : Heap × Ref :=
  (h ++ [f], h.length)

/-- The log messages `process_video` can emit: the warning of line 64 and the
error logs of lines 71 and 80. -/
inductive LogMsg where
  | warnEmptyFrame
  | errConvRGB2BGR
  | errConvBGR2RGB
deriving DecidableEq, Repr

/-- `detect_faces(frame)` (lines 18-46): convert the referenced buffer to
grayscale (an uncaught `cv2.error` propagates as `Except.error`), run the
detector, draw every detection onto the referenced buffer in place, and return
the same reference. -/
def detect_facesM (det : DetectorT) (h : Heap) (r : Ref) :
    Except Unit (Heap × Ref) :=
  match heapGet h r with
  | none => .error ()
  | some frame =>
    match cvtColorBGR2GRAY frame with
    | .error e => .error e
    | .ok gray =>
        .ok (heapSet h r (annotate frame (runDetector det gray)), r)

/-- The outcome of a `process_video` call that returned normally: the heap
after the call, the log messages emitted, and the returned Python value
(`none` embeds Python's `None`). -/
structure PVOut where
  heap : Heap
  log : List LogMsg
  ret : Option Ref
deriving Repr

/-- `process_video(frame)` (lines 48-83), the Gradio streaming callback.
`Except.error` means an exception escaped the callback.  A `None` or zero-size
frame is returned unchanged after one warning; a `cv2.error` from either
`cvtColor` is caught and logged, returning the best frame available at that
point (the untouched input at line 72, the annotated BGR buffer at line 81);
`detect_faces` is called outside any try/except, so its failure propagates. -/
def process_videoM (det : DetectorT) (h : Heap) (v : Option Ref) :
    Except Unit PVOut :=
  match v with
  | none => .ok ⟨h, [.warnEmptyFrame], none⟩
  | some r =>
    match heapGet h r with
    | none => .error ()
    | some frame =>
      if frame.size = 0 then .ok ⟨h, [.warnEmptyFrame], some r⟩
      else
        match cvtColorRGB2BGR frame with
        | .error _ => .ok ⟨h, [.errConvRGB2BGR], some r⟩
        | .ok bgr =>
          let ab := heapAlloc h bgr
          match detect_facesM det ab.1 ab.2 with
          | .error e => .error e
          | .ok hr =>
            match heapGet hr.1 hr.2 with
            | none => .error ()
            | some pframe =>
              match cvtColorBGR2RGB pframe with
              | .error _ => .ok ⟨hr.1, [.errConvBGR2RGB], some hr.2⟩
              | .ok rgb =>
                let ar := heapAlloc hr.1 rgb
                .ok ⟨ar.1, [], some ar.2⟩

/-- The frame a fully successful `process_video` call hands back, as a pure
function of the input frame: convert to BGR, annotate with the detections
found on the grayscale of the converted buffer, convert back to RGB. -/
def process_pure (det : DetectorT) (f : Frame) : Frame :=
  rgbSwap (annotate (rgbSwap f) (runDetector det (grayFrameOf (rgbSwap f))))

/-- A Python value (`None` or a reference) that is live in a heap. -/
def ValidVal (h : Heap) : Option Ref → Prop
  | none => True
  | some r => (heapGet h r).isSome

instance (h : Heap) (v : Option Ref) : Decidable (ValidVal h v) := by
  cases v <;> unfold ValidVal <;> infer_instance

/-! ### Interactive mode: `main` (lines 107-146)

The loop is embedded over a finite prefix of the read stream.  One read event
is `video_capture.read()`'s pair `(success, frame)`; the key stream gives the
result of the `waitKey` check at the n-th processed frame (`true` iff the key
pressed is 's').  Because buffers never flow across iterations, the loop is
embedded purely (each iteration works on the frame its read produced). -/

/-- Observable events of `main`: the warning of line 130, `cv2.imshow` of
line 137, the exit log of line 141, `release()` and `destroyAllWindows()`. -/
inductive Ev where
  | warnEmptyRead
  | show (f : Frame)
  | logExit
  | release
  | destroy
deriving DecidableEq, Repr

/-- How a run of the embedded loop over a finite read prefix ended:
`exited` via the key-press `break`; `running` with the loop still blocked on
the next read when the supplied prefix is exhausted; `crashed` when an
exception escaped an iteration (there is no try/except in the loop). -/
inductive LoopRes where
  | exited
  | running
  | crashed
deriving DecidableEq, Repr

/-- The guard of lines 129-131: a read yields a usable frame iff `success`
is true, the frame is not `None`, and its size is nonzero. -/
def readOk : Bool × Option Frame → Option Frame
  | (false, _) => none
  | (true, none) => none
  | (true, some f) => if f.size = 0 then none else some f

/-- The pure value analogue of `detect_faces` for a frame owned by one loop
iteration: grayscale conversion (whose `cv2.error` would propagate), then
in-place annotation of the buffer with the detections. -/
def detectFacesE (det : DetectorT) (f : Frame) : Except Unit Frame :=
  match cvtColorBGR2GRAY f with
  | .error e => .error e
  | .ok gray => .ok (annotate f (runDetector det gray))

/-- The `while True` loop of `main` (lines 125-142): skip unusable reads with
a warning; otherwise annotate, show, and break iff the key check fires. `k`
counts the frames processed so far (indexing the key stream). -/
def mainLoop (det : DetectorT) (keys : Nat → Bool) :
    List (Bool × Option Frame) → Nat → List Ev × LoopRes
  | [], _ => ([], .running)
  | rd :: rest, k =>
    match readOk rd with
    | none =>
        let t := mainLoop det keys rest k
        (.warnEmptyRead :: t.1, t.2)
    | some f =>
      match detectFacesE det f with
      | .error _ => ([], .crashed)
      | .ok g =>
        if keys k then (Ev.show g :: [.logExit], .exited)
        else
          let t := mainLoop det keys rest (k + 1)
          (Ev.show g :: t.1, t.2)

/-- Lines 144-146 of the source: once the loop has broken, release the device
and destroy the windows; a loop that is still waiting for reads, or out of
which an exception propagated, never reaches them. -/
def finishRun : List Ev × LoopRes → List Ev × LoopRes
  | (evs, .exited) => (evs ++ [.release, .destroy], .exited)
  | (evs, .running) => (evs, .running)
  | (evs, .crashed) => (evs, .crashed)

/-- `main(video_source)` (lines 107-146) over a finite read prefix: if the
device does not open, log and return at line 121; otherwise run the loop and,
once it breaks, release the device and destroy the windows (lines 145-146).
The second component tells whether `main` has returned within the prefix. -/
def mainRun (det : DetectorT) (opened : Bool) (keys : Nat → Bool)
    (reads : List (Bool × Option Frame)) : List Ev × LoopRes :=
  if opened then finishRun (mainLoop det keys reads 0)
  else ([], .exited)

/-! ### Structural lemmas -/

theorem swapTriples_swapTriples (l : List Nat) :
    swapTriples (swapTriples l) = l := by
  induction l using swapTriples.induct <;> simp_all [swapTriples]

theorem swapTriples_length (l : List Nat) :
    (swapTriples l).length = l.length := by
  induction l using swapTriples.induct <;> simp_all [swapTriples]

@[simp] theorem rgbSwap_height (f : Frame) : (rgbSwap f).height = f.height := rfl

@[simp] theorem rgbSwap_width (f : Frame) : (rgbSwap f).width = f.width := rfl

@[simp] theorem rgbSwap_channels (f : Frame) :
    (rgbSwap f).channels = f.channels := rfl

theorem rgbSwap_rgbSwap (f : Frame) : rgbSwap (rgbSwap f) = f := by
  cases f
  simp [rgbSwap, swapTriples_swapTriples]

@[simp] theorem drawRect_height (f : Frame) (d : Detection) :
    (drawRect f d).height = f.height := rfl

@[simp] theorem drawRect_width (f : Frame) (d : Detection) :
    (drawRect f d).width = f.width := rfl

@[simp] theorem drawRect_channels (f : Frame) (d : Detection) :
    (drawRect f d).channels = f.channels := rfl

@[simp] theorem drawRect_data_length (f : Frame) (d : Detection) :
    (drawRect f d).data.length = f.data.length := by
  simp [drawRect]

theorem annotate_height (f : Frame) (ds : List Detection) :
    (annotate f ds).height = f.height := by
  induction ds generalizing f with
  | nil => rfl
  | cons d ds ih => simpa [annotate] using ih (drawRect f d)

theorem annotate_width (f : Frame) (ds : List Detection) :
    (annotate f ds).width = f.width := by
  induction ds generalizing f with
  | nil => rfl
  | cons d ds ih => simpa [annotate] using ih (drawRect f d)

theorem annotate_channels (f : Frame) (ds : List Detection) :
    (annotate f ds).channels = f.channels := by
  induction ds generalizing f with
  | nil => rfl
  | cons d ds ih => simpa [annotate] using ih (drawRect f d)

/-! ### Heap lemmas -/

theorem heapGet_lt (h : Heap) (r : Ref) (f : Frame)
    (hg : heapGet h r = some f) : r < h.length := by
  unfold heapGet at hg
  rw [List.get?_eq_getElem?] at hg
  exact (List.getElem?_eq_some_iff.mp hg).1

theorem heapGet_alloc_self (h : Heap) (f : Frame) :
    heapGet (heapAlloc h f).1 (heapAlloc h f).2 = some f := by
  unfold heapGet heapAlloc
  rw [List.get?_eq_getElem?]
  exact List.getElem?_concat_length h f

theorem heapGet_alloc_preserve (h : Heap) (f : Frame) (r : Ref)
    (hr : r < h.length) :
    heapGet (heapAlloc h f).1 r = heapGet h r := by
  unfold heapGet heapAlloc
  rw [List.get?_eq_getElem?, List.get?_eq_getElem?]
  exact List.getElem?_append_left hr

theorem heapGet_set_self (h : Heap) (r : Ref) (f : Frame)
    (hr : r < h.length) :
    heapGet (heapSet h r f) r = some f := by
  unfold heapGet heapSet
  rw [List.get?_eq_getElem?]
  simp [List.getElem?_set_self, hr]

theorem heapGet_set_preserve (h : Heap) (r s : Ref) (f : Frame)
    (hne : r ≠ s) :
    heapGet (heapSet h s f) r = heapGet h r := by
  unfold heapGet heapSet
  rw [List.get?_eq_getElem?, List.get?_eq_getElem?]
  exact List.getElem?_set_ne (Ne.symm hne)

/-! ### Execution characterizations -/

theorem detect_facesM_ok (det : DetectorT) (h : Heap) (r : Ref) (f : Frame)
    (hg : heapGet h r = some f) (hc : f.channels = 3)
    (hs : 0 < f.height * f.width) :
    detect_facesM det h r =
      .ok (heapSet h r (annotate f (runDetector det (grayFrameOf f))), r) := by
  have hok : f.channels = 3 ∧ 0 < f.height * f.width := ⟨hc, hs⟩
  simp [detect_facesM, hg, cvtColorBGR2GRAY, hok, grayFrameOf]

theorem Frame.size_ne_zero (f : Frame) (hc : f.channels = 3)
    (hs : 0 < f.height * f.width) : f.size ≠ 0 := by
  unfold Frame.size
  rw [hc]
  omega

theorem process_videoM_success (det : DetectorT) (h : Heap) (r : Ref)
    (f : Frame) (hg : heapGet h r = some f) (hc : f.channels = 3)
    (hs : 0 < f.height * f.width) :
    process_videoM det h (some r) =
      .ok ⟨heapSet (h ++ [rgbSwap f]) h.length
             (annotate (rgbSwap f) (runDetector det (grayFrameOf (rgbSwap f))))
             ++ [process_pure det f],
           [], some (h.length + 1)⟩ := by
  have hsz : ¬ f.size = 0 := f.size_ne_zero hc hs
  have hok : f.channels = 3 ∧ 0 < f.height * f.width := ⟨hc, hs⟩
  have hc' : (rgbSwap f).channels = 3 := by rw [rgbSwap_channels, hc]
  have hs' : 0 < (rgbSwap f).height * (rgbSwap f).width := by
    rw [rgbSwap_height, rgbSwap_width]; exact hs
  have hdet := detect_facesM_ok det (h ++ [rgbSwap f]) h.length (rgbSwap f)
      (heapGet_alloc_self h (rgbSwap f)) hc' hs'
  set af := annotate (rgbSwap f) (runDetector det (grayFrameOf (rgbSwap f)))
    with haf
  have hac : af.channels = 3 := by
    rw [haf, annotate_channels, rgbSwap_channels, hc]
  have has : 0 < af.height * af.width := by
    rw [haf, annotate_height, annotate_width, rgbSwap_height, rgbSwap_width]
    exact hs
  have hok2 : af.channels = 3 ∧ 0 < af.height * af.width := ⟨hac, has⟩
  have hlen : h.length < (h ++ [rgbSwap f]).length := by simp
  have hget := heapGet_set_self (h ++ [rgbSwap f]) h.length af hlen
  have hslen : (heapSet (h ++ [rgbSwap f]) h.length af).length = h.length + 1 := by
    simp [heapSet]
  simp [process_videoM, hg, hsz, cvtColorRGB2BGR, hok, heapAlloc, hdet, hget,
    cvtColorBGR2RGB, hok2, hslen, process_pure, haf, annotate_channels,
    annotate_height, annotate_width, hc, hs]

/-! ### Concrete detectors and frames used to instantiate theorems -/

/-- A detector that finds no face anywhere. -/
def emptyDetector : DetectorT := fun _ _ _ _ => []

/-- A detector that reports one degenerate face at the origin. -/
def cornerDetector : DetectorT := fun _ _ _ _ => [⟨0, 0, 0, 0⟩]

/-- A detector that reports one face exactly at the configured `minSize`. -/
def minSizeDetector : DetectorT := fun _ _ _ ms => [⟨0, 0, ms.1, ms.2⟩]

theorem minSizeDetector_contract : DetectorContract minSizeDetector := by
  intro g sf mn ms d hd
  simp only [minSizeDetector, List.mem_singleton] at hd
  subst hd
  exact ⟨le_refl _, le_refl _⟩

/-- A well-formed 1×1 3-channel frame. -/
def sampleFrame : Frame := ⟨1, 1, 3, [10, 20, 30]⟩

/-- A malformed single-channel frame of nonzero size. -/
def badFrame : Frame := ⟨1, 1, 1, [5]⟩

/-! ### The claims -/

/-- Claim C5: for every well-formed 3-channel 8-bit frame `F`, annotating `F`
with an empty detection set is the identity — the annotation step of
`detect_faces` returns `F` with every pixel unchanged. -/
theorem C5_annotate_empty_identity (f : Frame) (_hf : f.WellFormed) :
    annotate f [] = f ∧ ∀ i j c : Nat, (annotate f []).pixel i j c = f.pixel i j c :=
  ⟨rfl, fun _ _ _ => rfl⟩

theorem C5_annotate_empty_identity_witness :
    sampleFrame.WellFormed ∧ annotate sampleFrame [] = sampleFrame :=
  ⟨by decide, (C5_annotate_empty_identity sampleFrame (by decide)).1⟩

/-- Claim C6: for every well-formed 3-channel 8-bit frame `F`, the RGB→BGR
conversion done on entry to `process_video` composed with the BGR→RGB
conversion done on exit restores a buffer equal to `F` (round-trip law). -/
theorem C6_conversion_roundtrip (f : Frame) (hf : f.WellFormed) :
    cvtColorRGB2BGR f = .ok (rgbSwap f) ∧ cvtColorBGR2RGB (rgbSwap f) = .ok f := by
  obtain ⟨hc, hh, hw, _, _⟩ := hf
  have hs : 0 < f.height * f.width := Nat.mul_pos hh hw
  constructor
  · simp [cvtColorRGB2BGR, hc, hs]
  · simp [cvtColorBGR2RGB, hc, hs, rgbSwap_rgbSwap]

theorem C6_conversion_roundtrip_witness :
    sampleFrame.WellFormed ∧
      (cvtColorRGB2BGR sampleFrame = .ok (rgbSwap sampleFrame) ∧
        cvtColorBGR2RGB (rgbSwap sampleFrame) = .ok sampleFrame) :=
  ⟨by decide, C6_conversion_roundtrip sampleFrame (by decide)⟩

/-- Claim C7: `detect_faces` mutates its input buffer in place and returns the
very same reference, so after the call the buffer referenced by the argument
holds the annotated contents, and when drawing changed the pixels the
pre-annotation contents are no longer reachable through that reference. -/
theorem C7_detect_faces_aliases_input (det : DetectorT) (h : Heap) (r : Ref)
    (f : Frame) (hg : heapGet h r = some f) (hc : f.channels = 3)
    (hs : 0 < f.height * f.width) :
    detect_facesM det h r =
      .ok (heapSet h r (annotate f (runDetector det (grayFrameOf f))), r) ∧
    heapGet (heapSet h r (annotate f (runDetector det (grayFrameOf f)))) r =
      some (annotate f (runDetector det (grayFrameOf f))) ∧
    (annotate f (runDetector det (grayFrameOf f)) ≠ f →
      heapGet (heapSet h r (annotate f (runDetector det (grayFrameOf f)))) r ≠
        some f) := by
  have hr : r < h.length := heapGet_lt h r f hg
  have hset := heapGet_set_self h r
    (annotate f (runDetector det (grayFrameOf f))) hr
  refine ⟨detect_facesM_ok det h r f hg hc hs, hset, fun hne hcontra => ?_⟩
  rw [hset] at hcontra
  exact hne (Option.some_injective _ hcontra)

theorem C7_detect_faces_aliases_input_witness :
    heapGet [Frame.mk 1 1 3 [9, 9, 9]] 0 = some (Frame.mk 1 1 3 [9, 9, 9]) ∧
      (detect_facesM cornerDetector [Frame.mk 1 1 3 [9, 9, 9]] 0 =
        .ok (heapSet [Frame.mk 1 1 3 [9, 9, 9]] 0
          (annotate (Frame.mk 1 1 3 [9, 9, 9])
            (runDetector cornerDetector (grayFrameOf (Frame.mk 1 1 3 [9, 9, 9])))), 0) ∧
      heapGet (heapSet [Frame.mk 1 1 3 [9, 9, 9]] 0
          (annotate (Frame.mk 1 1 3 [9, 9, 9])
            (runDetector cornerDetector (grayFrameOf (Frame.mk 1 1 3 [9, 9, 9]))))) 0 =
        some (annotate (Frame.mk 1 1 3 [9, 9, 9])
          (runDetector cornerDetector (grayFrameOf (Frame.mk 1 1 3 [9, 9, 9])))) ∧
      (annotate (Frame.mk 1 1 3 [9, 9, 9])
          (runDetector cornerDetector (grayFrameOf (Frame.mk 1 1 3 [9, 9, 9]))) ≠
          Frame.mk 1 1 3 [9, 9, 9] →
        heapGet (heapSet [Frame.mk 1 1 3 [9, 9, 9]] 0
            (annotate (Frame.mk 1 1 3 [9, 9, 9])
              (runDetector cornerDetector (grayFrameOf (Frame.mk 1 1 3 [9, 9, 9]))))) 0 ≠
          some (Frame.mk 1 1 3 [9, 9, 9]))) :=
  ⟨rfl, C7_detect_faces_aliases_input cornerDetector _ 0 _ rfl rfl (by decide)⟩

/-- Claim C9: assuming the external detector honors its `minSize` parameter
contract, the detection pass of `detect_faces` — which configures
`minSize=(40,40)` — returns no detection of width or height below 40, for
every grayscale input frame. -/
theorem C9_min_size_respected (det : DetectorT) (hdet : DetectorContract det)
    (g : GrayFrame) (d : Detection) (hd : d ∈ runDetector det g) :
    40 ≤ d.w ∧ 40 ≤ d.h :=
  hdet g (11 / 10 : Rat) 5 (40, 40) d hd

theorem C9_min_size_respected_witness :
    40 ≤ (Detection.mk 0 0 40 40).w ∧ 40 ≤ (Detection.mk 0 0 40 40).h :=
  C9_min_size_respected minSizeDetector minSizeDetector_contract
    ⟨1, 1, [0]⟩ ⟨0, 0, 40, 40⟩ (by simp [runDetector, minSizeDetector])

/-- Claim C4: for an input that is `None` or a zero-size buffer, `process_video`
returns the very same value it received, does not throw, leaves the heap
untouched, and logs exactly one warning. -/
theorem C4_empty_frame_skipped (det : DetectorT) (h : Heap) (v : Option Ref)
    (hv : v = none ∨ ∃ r f, v = some r ∧ heapGet h r = some f ∧ f.size = 0) :
    process_videoM det h v = .ok ⟨h, [.warnEmptyFrame], v⟩ := by
  rcases hv with rfl | ⟨r, f, rfl, hg, hsz⟩
  · rfl
  · simp [process_videoM, hg, hsz]

theorem C4_empty_frame_skipped_witness :
    process_videoM emptyDetector [] none =
      .ok ⟨[], [.warnEmptyFrame], none⟩ :=
  C4_empty_frame_skipped emptyDetector [] none (Or.inl rfl)

/-- Claim C2: whenever a color-space conversion inside `process_video` fails
(the RGB→BGR conversion on entry, or the BGR→RGB conversion on exit — the
latter cannot actually fail, since annotation preserves the 3-channel shape
that made the entry conversion succeed), the callback logs the failure and
returns the original input reference with the heap unchanged, instead of
propagating the failure. -/
theorem C2_conversion_failure_recovered (det : DetectorT) (h : Heap) (r : Ref)
    (f : Frame) (hg : heapGet h r = some f) (hsz : f.size ≠ 0)
    (hfail : cvtColorRGB2BGR f = .error () ∨
      ∃ bgr, cvtColorRGB2BGR f = .ok bgr ∧
        cvtColorBGR2RGB (annotate bgr (runDetector det (grayFrameOf bgr))) =
          .error ()) :
    ∃ m, process_videoM det h (some r) = .ok ⟨h, [m], some r⟩ := by
  rcases hfail with hfail | ⟨bgr, hok, hfail⟩
  · exact ⟨.errConvRGB2BGR, by simp [process_videoM, hg, hsz, hfail]⟩
  · exfalso
    unfold cvtColorRGB2BGR at hok
    by_cases hcond : f.channels = 3 ∧ 0 < f.height * f.width
    · rw [if_pos hcond] at hok
      have hbgr : bgr = rgbSwap f := by
        injection hok with hok
        exact hok.symm
      subst hbgr
      unfold cvtColorBGR2RGB at hfail
      rw [if_pos ⟨by simp [annotate_channels, hcond.1],
        by simpa [annotate_height, annotate_width] using hcond.2⟩] at hfail
      exact Except.noConfusion hfail
    · rw [if_neg hcond] at hok
      exact Except.noConfusion hok

theorem C2_conversion_failure_recovered_witness :
    heapGet [badFrame] 0 = some badFrame ∧ badFrame.size ≠ 0 ∧
      ∃ m, process_videoM emptyDetector [badFrame] (some 0) =
        .ok ⟨[badFrame], [m], some 0⟩ :=
  ⟨rfl, by decide,
    C2_conversion_failure_recovered emptyDetector [badFrame] 0 badFrame rfl
      (by decide) (Or.inl rfl)⟩

/-- Claim C10: for every non-empty, well-formed input frame, `process_video`
never mutates the caller's buffer: the entry conversion allocates a fresh
buffer and annotation happens on that fresh buffer only, so after the call the
input reference still holds the exact frame that was passed in. -/
theorem C10_input_buffer_preserved (det : DetectorT) (h : Heap) (r : Ref)
    (f : Frame) (hg : heapGet h r = some f) (hw : f.WellFormed) :
    (process_videoM det h (some r)).map (fun out => heapGet out.heap r) =
      .ok (some f) := by
  obtain ⟨hc, hh, hwd, _, _⟩ := hw
  have hs : 0 < f.height * f.width := Nat.mul_pos hh hwd
  rw [process_videoM_success det h r f hg hc hs]
  have hr : r < h.length := heapGet_lt h r f hg
  set af := annotate (rgbSwap f) (runDetector det (grayFrameOf (rgbSwap f)))
  have hslen : (heapSet (h ++ [rgbSwap f]) h.length af).length = h.length + 1 := by
    simp [heapSet]
  have step3 : heapGet (heapAlloc h (rgbSwap f)).1 r = heapGet h r :=
    heapGet_alloc_preserve h (rgbSwap f) r hr
  have step2 : heapGet (heapSet (h ++ [rgbSwap f]) h.length af) r =
      heapGet (h ++ [rgbSwap f]) r :=
    heapGet_set_preserve (h ++ [rgbSwap f]) r h.length af (Nat.ne_of_lt hr)
  have step1 : heapGet (heapAlloc (heapSet (h ++ [rgbSwap f]) h.length af)
      (process_pure det f)).1 r =
      heapGet (heapSet (h ++ [rgbSwap f]) h.length af) r :=
    heapGet_alloc_preserve _ (process_pure det f) r
      (by rw [hslen]; exact Nat.lt_succ_of_lt hr)
  simp only [heapAlloc] at step1 step3
  simp [Except.map, step1, step2, step3, hg]

theorem C10_input_buffer_preserved_witness :
    heapGet [sampleFrame] 0 = some sampleFrame ∧ sampleFrame.WellFormed ∧
      (process_videoM emptyDetector [sampleFrame] (some 0)).map
        (fun out => heapGet out.heap 0) = .ok (some sampleFrame) :=
  ⟨rfl, by decide,
    C10_input_buffer_preserved emptyDetector [sampleFrame] 0 sampleFrame rfl
      (by decide)⟩

/-- Claim C1: for every input value (a `None` or a live buffer reference),
`process_video` never raises past its boundary — it always returns normally,
handing back the fully processed frame when the pipeline succeeded and the
original value otherwise. -/
theorem C1_callback_never_raises (det : DetectorT) (h : Heap) (v : Option Ref)
    (hv : ValidVal h v) :
    ∃ out, process_videoM det h v = .ok out ∧
      (out.ret = v ∨ ∃ r f r', v = some r ∧ heapGet h r = some f ∧
        out.ret = some r' ∧ heapGet out.heap r' = some (process_pure det f)) := by
  match v with
  | none => exact ⟨⟨h, [.warnEmptyFrame], none⟩, rfl, Or.inl rfl⟩
  | some r =>
    unfold ValidVal at hv
    obtain ⟨f, hg⟩ := Option.isSome_iff_exists.mp hv
    by_cases hsz : f.size = 0
    · exact ⟨⟨h, [.warnEmptyFrame], some r⟩,
        C4_empty_frame_skipped det h (some r) (Or.inr ⟨r, f, rfl, hg, hsz⟩),
        Or.inl rfl⟩
    · by_cases hc : f.channels = 3
      · have hs : 0 < f.height * f.width := by
          unfold Frame.size at hsz
          rw [hc] at hsz
          omega
        refine ⟨_, process_videoM_success det h r f hg hc hs,
          Or.inr ⟨r, f, h.length + 1, rfl, hg, rfl, ?_⟩⟩
        set af := annotate (rgbSwap f) (runDetector det (grayFrameOf (rgbSwap f)))
        have hslen : (heapSet (h ++ [rgbSwap f]) h.length af).length =
            h.length + 1 := by
          simp [heapSet]
        have := heapGet_alloc_self (heapSet (h ++ [rgbSwap f]) h.length af)
          (process_pure det f)
        simp only [heapAlloc, hslen] at this
        exact this
      · have hfail : cvtColorRGB2BGR f = .error () := by
          simp [cvtColorRGB2BGR, hc]
        exact ⟨⟨h, [.errConvRGB2BGR], some r⟩,
          by simp [process_videoM, hg, hsz, hfail], Or.inl rfl⟩

theorem C1_callback_never_raises_witness :
    ValidVal [badFrame] (some 0) ∧
      ∃ out, process_videoM emptyDetector [badFrame] (some 0) = .ok out ∧
        (out.ret = some 0 ∨ ∃ r f r', (some 0 : Option Ref) = some r ∧
          heapGet [badFrame] r = some f ∧ out.ret = some r' ∧
          heapGet out.heap r' = some (process_pure emptyDetector f)) :=
  ⟨by decide, C1_callback_never_raises emptyDetector [badFrame] (some 0)
    (by decide)⟩

/-- Claim C8: on every exit path from interactive mode on which the capture
device was acquired and through which `main` actually returns, the device is
released and the windows are destroyed immediately before the return. -/
theorem C8_resources_released (det : DetectorT) (keys : Nat → Bool)
    (reads : List (Bool × Option Frame)) (opened : Bool) (hop : opened = true)
    (hret : (mainRun det opened keys reads).2 = .exited) :
    ∃ evs, (mainRun det opened keys reads).1 = evs ++ [Ev.release, Ev.destroy] := by
  subst hop
  unfold mainRun at hret ⊢
  rw [if_pos rfl] at hret ⊢
  rcases hloop : mainLoop det keys reads 0 with ⟨evs, res⟩
  rw [hloop] at hret
  cases res with
  | exited => exact ⟨evs, by simp [hloop, finishRun]⟩
  | running => exact absurd hret (by simp [finishRun])
  | crashed => exact absurd hret (by simp [finishRun])

theorem C8_resources_released_witness :
    (true : Bool) = true ∧
      (mainRun emptyDetector true (fun _ => true) [(true, some sampleFrame)]).2 =
        .exited ∧
      ∃ evs, (mainRun emptyDetector true (fun _ => true)
          [(true, some sampleFrame)]).1 = evs ++ [Ev.release, Ev.destroy] :=
  ⟨rfl, rfl, C8_resources_released emptyDetector (fun _ => true)
    [(true, some sampleFrame)] true rfl rfl⟩

/-- Claim C3 (amended): the interactive-mode loop skips malformed/empty
frames — a read failure never terminates it, even when the source has stopped
yielding frames for good — and it can exit only through the key-press
condition; given a source yielding 3 empty reads followed by one valid frame,
it processes and displays the 4th frame. -/
theorem C3_loop_skips_and_exits_on_key (det : DetectorT) (keys : Nat → Bool) :
    (∀ n k, mainLoop det keys (List.replicate n (false, none)) k =
      (List.replicate n Ev.warnEmptyRead, .running)) ∧
    (∀ reads k, (∀ i, keys i = false) →
      (mainLoop det keys reads k).2 ≠ .exited) ∧
    (∀ f : Frame, f.channels = 3 → 0 < f.height * f.width →
      ∃ rest, (mainLoop det keys
          (List.replicate 3 (false, none) ++ [(true, some f)]) 0).1 =
        List.replicate 3 Ev.warnEmptyRead ++
          Ev.show (annotate f (runDetector det (grayFrameOf f))) :: rest) := by
  refine ⟨?_, ?_, ?_⟩
  · intro n
    induction n with
    | zero => intro k; rfl
    | succ m ih =>
        intro k
        simp only [List.replicate_succ, mainLoop, readOk, ih k]
  · intro reads
    induction reads with
    | nil => intro k _; simp [mainLoop]
    | cons rd rest ih =>
        intro k hk
        unfold mainLoop
        cases hro : readOk rd with
        | none => simp only [hro]; simpa using ih k hk
        | some f =>
          simp only [hro]
          cases hdf : detectFacesE det f with
          | error e => simp [hdf]
          | ok g => simpa [hdf, hk k] using ih (k + 1) hk
  · intro f hc hs
    have hsz : ¬ f.size = 0 := f.size_ne_zero hc hs
    have hdf : detectFacesE det f =
        .ok (annotate f (runDetector det (grayFrameOf f))) := by
      have hok : f.channels = 3 ∧ 0 < f.height * f.width := ⟨hc, hs⟩
      simp [detectFacesE, cvtColorBGR2GRAY, hok, grayFrameOf]
    by_cases hk : keys 0
    · exact ⟨[Ev.logExit], by
        simp [mainLoop, readOk, List.replicate, hsz, hdf, hk]⟩
    · exact ⟨[], by
        simp [mainLoop, readOk, List.replicate, hsz, hdf, hk]⟩

theorem C3_loop_skips_and_exits_on_key_witness :
    ∃ rest, (mainLoop emptyDetector (fun _ => false)
        (List.replicate 3 (false, none) ++ [(true, some sampleFrame)]) 0).1 =
      List.replicate 3 Ev.warnEmptyRead ++
        Ev.show (annotate sampleFrame
          (runDetector emptyDetector (grayFrameOf sampleFrame))) :: rest :=
  (C3_loop_skips_and_exits_on_key emptyDetector (fun _ => false)).2.2
    sampleFrame (by decide) (by decide)

/-- Claim C3, as stated, is false: when the frame source stops yielding frames
(every remaining read fails), the loop does not terminate — after five failed
reads from a dead source it is still running, waiting for valid frames, so
"the loop terminates ... when the frame source stops yielding frames" does not
hold of the code. -/
theorem C3_source_stop_does_not_terminate :
    (mainLoop emptyDetector (fun _ => false)
      (List.replicate 5 (false, none)) 0).2 = .running ∧
    LoopRes.running ≠ LoopRes.exited := by
  constructor
  · rfl
  · decide

end FaceDetection
